import Mathlib

/-!
Verification of the material-scattering core of the `YoriVerbist/ray-tracer`
repository (`src/material.h`, `src/InOneWeekend/rtweekend.h`).

C++ `double` values are modelled as real numbers; the process-wide random
generator is modelled as explicit arguments carrying the uniform draws a call
consumes (the spec's configuration seam: "tests should inject a deterministic
generator").  The vector/ray/basis/texture primitives are not part of the two
source files; they are modelled from the spec where the spec describes them.
Out-parameters (`attenuation`, `scattered`, `pdf`) are modelled by passing
their prior values in and returning the values they hold after the call.
-/

namespace RayTracer

/-- Modelled from the spec: a 3-component vector of doubles (`vec3`), also
used for colors ("Color: 3-component radiance/albedo value") and points. -/
structure vec3 where
  x : ℝ
  y : ℝ
  z : ℝ

namespace vec3

instance : Add vec3 := ⟨fun a b => ⟨a.x + b.x, a.y + b.y, a.z + b.z⟩⟩

instance : Neg vec3 := ⟨fun a => ⟨-a.x, -a.y, -a.z⟩⟩

instance : Sub vec3 := ⟨fun a b => a + -b⟩

instance : SMul ℝ vec3 := ⟨fun t a => ⟨t * a.x, t * a.y, t * a.z⟩⟩

theorem add_def (a b : vec3) : a + b = ⟨a.x + b.x, a.y + b.y, a.z + b.z⟩ := rfl

theorem neg_def (a : vec3) : -a = ⟨-a.x, -a.y, -a.z⟩ := rfl

theorem sub_def (a b : vec3) : a - b = a + -b := rfl

theorem smul_def (t : ℝ) (a : vec3) : t • a = ⟨t * a.x, t * a.y, t * a.z⟩ := rfl

/-- Modelled from the spec: the dot product of the vector math primitives. -/
def dot (a b : vec3) : ℝ := a.x * b.x + a.y * b.y + a.z * b.z

/-- Modelled from the spec: the cross product used to derive basis axes. -/
def cross (a b : vec3) : vec3 :=
  ⟨a.y * b.z - a.z * b.y, a.z * b.x - a.x * b.z, a.x * b.y - a.y * b.x⟩

/-- Modelled from the spec: Euclidean length of a vector. -/
noncomputable def length (a : vec3) : ℝ := Real.sqrt (dot a a)

/-- Modelled from the spec: `unit_vector(v) = v / v.length()`, the normalizing
operation of the vector primitives. -/
noncomputable def unit_vector (a : vec3) : vec3 := (1 / length a) • a

end vec3

/-- Shorthand matching the C++ `using color = vec3`. -/
abbrev color := vec3

/-- Shorthand matching the C++ `using point3 = vec3`. -/
abbrev point3 := vec3

/-- `pi` constant from `rtweekend.h`, modelled as the real number π. -/
noncomputable def pi : ℝ := Real.pi

/-- Modelled from the spec: "Ray: origin point + direction vector + time
scalar"; `r.time()` and `r.direction()` are field reads. -/
structure ray where
  origin : point3
  direction : vec3
  time : ℝ

/-- Modelled from the spec: "HitRecord: point of intersection, surface normal
(unit length, oriented), front/back-face flag, surface coordinates (u, v), and
the parametric distance along the ray". -/
structure hit_record where
  p : point3
  normal : vec3
  t : ℝ
  u : ℝ
  v : ℝ
  front_face : Bool

/-- Modelled from the spec: the texture capability boundary, "exposing
`value(u, v, point) -> Color`". -/
structure texture where
  value : ℝ → ℝ → point3 → color

/-- Modelled from the spec: "a solid-color texture is the degenerate case
wrapping a constant color" (`solid_color`). -/
def solid_color (c : color) : texture := ⟨fun _ _ _ => c⟩

/-- Modelled from the spec: `reflect(v, n) = v - 2*dot(v,n)*n`, the mirror
reflection of the geometry helpers. -/
def reflect (v n : vec3) : vec3 := v - (2 * vec3.dot v n) • n

/-- Modelled from the spec: `refract(uv, n, eta_ratio)`, Snell's-law
refraction computing perpendicular and parallel components. -/
noncomputable def refract (uv n : vec3) (etai_over_etat : ℝ) : vec3 :=
  let cos_theta := min (vec3.dot (-uv) n) 1
  let r_out_perp := etai_over_etat • (uv + cos_theta • n)
  let r_out_parallel := (-Real.sqrt |1 - vec3.dot r_out_perp r_out_perp|) • n
  r_out_perp + r_out_parallel

/-- Modelled from the spec: the orthonormal basis (`onb`), "three mutually
orthogonal unit vectors derived from a single input normal". -/
structure onb where
  u : vec3
  v : vec3
  w : vec3

namespace onb

/-- Modelled from the spec: `local(vector)` maps basis-local coordinates to
world coordinates, `x*u + y*v + z*w`. -/
def local_coords (b : onb) (a : vec3) : vec3 := a.x • b.u + a.y • b.v + a.z • b.w

/-- Modelled from the spec: `build_from_w` constructs the frame from a unit
normal `w`, preserved exactly: a helper axis not parallel to `w` (world-up
unless `w` is near-parallel to it, else a different axis), then
`v = normalize(cross(helper, w))` and `u = cross(v, w)`. -/
noncomputable def build_from_w (n : vec3) : onb :=
  let w := n
  let helper : vec3 := if |n.y| > 0.9 then ⟨1, 0, 0⟩ else ⟨0, 1, 0⟩
  let v := vec3.unit_vector (vec3.cross helper w)
  let u := vec3.cross v w
  ⟨u, v, w⟩

end onb

/-- Modelled from the spec: the cosine-weighted hemisphere sampler
(`random_cosine_direction`) applied to its two uniform draws `r1, r2`:
`phi = 2*pi*r1`, `z = sqrt(1 - r2)`, `x = cos(phi)*sqrt(r2)`,
`y = sin(phi)*sqrt(r2)`. -/
noncomputable def random_cosine_direction (r1 r2 : ℝ) : vec3 :=
  ⟨Real.cos (2 * pi * r1) * Real.sqrt r2,
   Real.sin (2 * pi * r1) * Real.sqrt r2,
   Real.sqrt (1 - r2)⟩

/-- Result of a `scatter` call: the returned boolean together with the values
the three out-parameters hold after the call. -/
structure ScatterResult where
  did : Prop
  attenuation : color
  scattered : ray
  pdf : ℝ

/-- `class lambertian` of `material.h`: diffuse material holding a texture. -/
structure lambertian where
  albedo : texture

namespace lambertian

/-- `lambertian(const color& a)`: wraps the color in a `solid_color`. -/
def of_color (a : color) : lambertian := ⟨solid_color a⟩

/-- `lambertian::scatter` (`material.h` lines 32-40): builds an orthonormal
basis from the hit normal, samples a cosine-weighted direction in it (`r1, r2`
are the two uniform draws the sampler consumes), sets the scattered ray, the
albedo from the texture, and `pdf = dot(uvw.w(), scattered.direction()) / pi`,
returning `true`. -/
noncomputable def scatter (m : lambertian) (r_in : ray) (rec : hit_record)
    (r1 r2 : ℝ) (_alb0 : color) (_scattered0 : ray) (_pdf0 : ℝ) : ScatterResult :=
  let uvw := onb.build_from_w rec.normal
  let scatter_direction := uvw.local_coords (random_cosine_direction r1 r2)
  let scattered := ray.mk rec.p scatter_direction r_in.time
  let alb := m.albedo.value rec.u rec.v rec.p
  let pdf := vec3.dot uvw.w scattered.direction / pi
  ⟨True, alb, scattered, pdf⟩

/-- `lambertian::scattering_pdf` (`material.h` line 42): its body is the lone
statement `1 / (2 * pi);` — the value is computed and discarded, and control
falls off the end of the non-void function without any `return` statement, so
no value is ever returned.  The fallible embedding returns `none`. -/
def scattering_pdf (_m : lambertian) (_r_in : ray) (_rec : hit_record)
    (_scattered : ray) : Option ℝ := none

end lambertian

/-- `class metal` of `material.h`: reflective material with albedo and fuzz. -/
structure metal where
  albedo : color
  fuzz : ℝ

namespace metal

/-- `metal(const color& a, double f)` (`material.h` line 50): stores the
albedo and `fuzz(f < 1 ? f : 1)`. -/
noncomputable def make (a : color) (f : ℝ) : metal := ⟨a, if f < 1 then f else 1⟩

/-- `metal::scatter` (`material.h` lines 52-58): reflects the normalized
incoming direction about the normal, perturbs by `fuzz * random_unit_vector()`
(the unit draw is the explicit argument `rand_unit`), sets the attenuation to
the stored albedo, and returns `dot(scattered.direction(), rec.normal) > 0`.
The `pdf` out-parameter is never assigned. -/
noncomputable def scatter (m : metal) (r_in : ray) (rec : hit_record)
    (rand_unit : vec3) (_att0 : color) (_scattered0 : ray) (pdf0 : ℝ) :
    ScatterResult :=
  let reflected := reflect (vec3.unit_vector r_in.direction) rec.normal
  let scattered := ray.mk rec.p (reflected + m.fuzz • rand_unit) r_in.time
  let attenuation := m.albedo
  ⟨vec3.dot scattered.direction rec.normal > 0, attenuation, scattered, pdf0⟩

end metal

/-- `class dielectric` of `material.h`: glass material with an index of
refraction `ir`. -/
structure dielectric where
  ir : ℝ

namespace dielectric

/-- `dielectric::reflectance` (`material.h` lines 93-98): Schlick's
approximation, `r0 = ((1-ref_idx)/(1+ref_idx))^2`, then
`r0 + (1-r0)*(1-cosine)^5`. -/
noncomputable def reflectance (cosine ref_idx : ℝ) : ℝ :=
  let r0 := (1 - ref_idx) / (1 + ref_idx)
  let r0 := r0 * r0
  r0 + (1 - r0) * (1 - cosine) ^ (5 : ℕ)

/-- `dielectric::scatter` (`material.h` lines 69-88): attenuation is white,
the refraction ratio is `1/ir` on a front face and `ir` otherwise; reflects if
`refraction_ratio * sin_theta > 1` (total internal reflection) or the uniform
draw `rand` falls below the Schlick reflectance, otherwise refracts.  Returns
`true`; `pdf` is never assigned. -/
noncomputable def scatter (d : dielectric) (r_in : ray) (rec : hit_record)
    (rand : ℝ) (_att0 : color) (_scattered0 : ray) (pdf0 : ℝ) : ScatterResult :=
  let attenuation : color := ⟨1, 1, 1⟩
  let refraction_ratio := if rec.front_face then 1 / d.ir else d.ir
  let unit_direction := vec3.unit_vector r_in.direction
  let cos_theta := min (vec3.dot (-unit_direction) rec.normal) 1
  let sin_theta := Real.sqrt (1 - cos_theta * cos_theta)
  let cannot_refract := refraction_ratio * sin_theta > 1
  let direction :=
    if cannot_refract ∨ reflectance cos_theta refraction_ratio > rand then
      reflect unit_direction rec.normal
    else
      refract unit_direction rec.normal refraction_ratio
  ⟨True, attenuation, ray.mk rec.p direction r_in.time, pdf0⟩

end dielectric

/-- `class diffuse_light` of `material.h`: emissive material with texture. -/
structure diffuse_light where
  emit : texture

namespace diffuse_light

/-- `diffuse_light(color c)`: wraps the color in a `solid_color`. -/
def of_color (c : color) : diffuse_light := ⟨solid_color c⟩

/-- `diffuse_light::scatter` (`material.h` lines 106-109): returns `false`
without touching any out-parameter. -/
def scatter (_m : diffuse_light) (_r_in : ray) (_rec : hit_record)
    (att0 : color) (scattered0 : ray) (pdf0 : ℝ) : ScatterResult :=
  ⟨False, att0, scattered0, pdf0⟩

/-- `diffuse_light::emitted` (`material.h` lines 111-115): returns black for
a back face, else the texture value at `(u, v, p)`. -/
def emitted (m : diffuse_light) (_r_in : ray) (rec : hit_record)
    (u v : ℝ) (p : point3) : color :=
  if !rec.front_face then ⟨0, 0, 0⟩ else m.emit.value u v p

end diffuse_light

/-- `class isotropic` of `material.h`: uniform volume scattering material. -/
structure isotropic where
  albedo : texture

namespace isotropic

/-- `isotropic(color c)`: wraps the color in a `solid_color`. -/
def of_color (c : color) : isotropic := ⟨solid_color c⟩

/-- `isotropic::scatter` (`material.h` lines 126-131): the scattered ray goes
in a uniform random unit direction (the draw is the argument `rand_unit`), the
albedo comes from the texture, `pdf = 1 / (4*pi)`, and it returns `true`. -/
noncomputable def scatter (m : isotropic) (r_in : ray) (rec : hit_record)
    (rand_unit : vec3) (_alb0 : color) (_scattered0 : ray) (_pdf0 : ℝ) :
    ScatterResult :=
  let scattered := ray.mk rec.p rand_unit r_in.time
  let alb := m.albedo.value rec.u rec.v rec.p
  let pdf := 1 / (4 * pi)
  ⟨True, alb, scattered, pdf⟩

/-- `isotropic::scattering_pdf` (`material.h` lines 133-135):
`return 1 / (4 * pi);`. -/
noncomputable def scattering_pdf (_m : isotropic) (_r_in : ray)
    (_rec : hit_record) (_scattered : ray) : ℝ := 1 / (4 * pi)

end isotropic

/-! ### Helper lemmas about the vector algebra -/

theorem dot_add_right (a b c : vec3) :
    vec3.dot a (b + c) = vec3.dot a b + vec3.dot a c := by
  cases a
  cases b
  cases c
  simp [vec3.dot, vec3.add_def]
  ring

theorem dot_smul_right (t : ℝ) (a b : vec3) :
    vec3.dot a (t • b) = t * vec3.dot a b := by
  cases a
  cases b
  simp [vec3.dot, vec3.smul_def]
  ring

theorem dot_cross_right (a w : vec3) : vec3.dot w (vec3.cross a w) = 0 := by
  cases a
  cases w
  simp [vec3.dot, vec3.cross]
  ring

theorem dot_unit_cross (h w : vec3) :
    vec3.dot w (vec3.unit_vector (vec3.cross h w)) = 0 := by
  unfold vec3.unit_vector
  rw [dot_smul_right, dot_cross_right, mul_zero]

/-- The basis keeps the input normal as its third axis, exactly. -/
theorem build_from_w_w (n : vec3) : (onb.build_from_w n).w = n := rfl

/-- Dotting the basis normal with a local-coordinates image extracts the local
z-component scaled by the squared length of the normal. -/
theorem dot_w_local (n d : vec3) :
    vec3.dot n ((onb.build_from_w n).local_coords d) = d.z * vec3.dot n n := by
  simp only [onb.build_from_w, onb.local_coords]
  rw [dot_add_right, dot_add_right, dot_smul_right, dot_smul_right,
    dot_smul_right, dot_cross_right, dot_unit_cross]
  ring

theorem vec3.add_zero_smul (v u : vec3) : v + (0 : ℝ) • u = v := by
  cases v
  cases u
  simp [vec3.add_def, vec3.smul_def]

/-! ### Claim theorems -/

/-- C1: the claim says `lambertian::scattering_pdf` returns the constant
`1/(2*pi)`, but the function body is the bare expression statement
`1 / (2 * pi);` with no `return`: the value is discarded and a non-void
function falls off its end, so the claimed value is never returned.  At the
concrete input below the embedded function yields no value at all, and in
particular not `some (1 / (2 * pi))`. -/
theorem lambertian_scattering_pdf_has_no_return :
    lambertian.scattering_pdf (lambertian.of_color ⟨1, 1, 1⟩)
        ⟨⟨0, 0, 0⟩, ⟨0, 0, -1⟩, 0⟩ ⟨⟨0, 0, 0⟩, ⟨0, 0, 1⟩, 1, 0, 0, true⟩
        ⟨⟨0, 0, 0⟩, ⟨0, 0, 1⟩, 0⟩ = none ∧
      lambertian.scattering_pdf (lambertian.of_color ⟨1, 1, 1⟩)
        ⟨⟨0, 0, 0⟩, ⟨0, 0, -1⟩, 0⟩ ⟨⟨0, 0, 0⟩, ⟨0, 0, 1⟩, 1, 0, 0, true⟩
        ⟨⟨0, 0, 0⟩, ⟨0, 0, 1⟩, 0⟩ ≠ some (1 / (2 * pi)) := by
  exact ⟨rfl, by simp [lambertian.scattering_pdf]⟩

/-- C3 counterexample: the metal constructor only clamps from above
(`fuzz(f < 1 ? f : 1)`); at the argument `f = -1` the stored fuzz is `-1`,
outside `[0, 1]`, so the claim that the stored fuzz always lies in `[0, 1]`
is false. -/
theorem metal_fuzz_not_clamped_below :
    ¬ (0 ≤ (metal.make ⟨1, 1, 1⟩ (-1)).fuzz ∧
        (metal.make ⟨1, 1, 1⟩ (-1)).fuzz ≤ 1) := by
  intro hcontra
  have hfuzz : (metal.make ⟨1, 1, 1⟩ (-1)).fuzz = -1 := by
    norm_num [metal.make]
  rw [hfuzz] at hcontra
  linarith [hcontra.1]

/-- C3 (amended): the metal constructor stores `f < 1 ? f : 1`, so the stored
fuzz is always at most 1, and it lies in `[0, 1]` whenever the argument is
non-negative; the constructor does not clamp from below. -/
theorem metal_fuzz_clamped_above :
    ∀ (a : color) (f : ℝ),
      (metal.make a f).fuzz ≤ 1 ∧
        (0 ≤ f → 0 ≤ (metal.make a f).fuzz ∧ (metal.make a f).fuzz ≤ 1) := by
  intro a f
  unfold metal.make
  dsimp only
  constructor
  · split_ifs with h
    · linarith
    · exact le_refl 1
  · intro hf
    split_ifs with h
    · exact ⟨hf, le_of_lt h⟩
    · exact ⟨zero_le_one, le_refl 1⟩

/-- C3 witness: at the concrete argument `f = 1/2` the hypothesis `0 ≤ f`
holds and the stored fuzz lies in `[0, 1]`. -/
theorem metal_fuzz_clamped_above_witness :
    (0 : ℝ) ≤ 1 / 2 ∧
      (0 ≤ (metal.make ⟨1, 1, 1⟩ (1 / 2)).fuzz ∧
        (metal.make ⟨1, 1, 1⟩ (1 / 2)).fuzz ≤ 1) :=
  ⟨by norm_num, (metal_fuzz_clamped_above ⟨1, 1, 1⟩ (1 / 2)).2 (by norm_num)⟩

/-- C4: `metal::scatter` returns true exactly when the perturbed reflection
has positive dot product with the hit normal; the scattered direction is the
mirror reflection of the normalized incoming direction plus `fuzz` times the
random unit draw, and the attenuation is always set to the stored albedo. -/
theorem metal_scatter_spec :
    ∀ (m : metal) (r_in : ray) (rec : hit_record) (rand_unit : vec3)
      (att0 : color) (sc0 : ray) (pdf0 : ℝ),
      ((m.scatter r_in rec rand_unit att0 sc0 pdf0).did ↔
          0 < vec3.dot
            (m.scatter r_in rec rand_unit att0 sc0 pdf0).scattered.direction
            rec.normal) ∧
        (m.scatter r_in rec rand_unit att0 sc0 pdf0).scattered.direction =
          reflect (vec3.unit_vector r_in.direction) rec.normal +
            m.fuzz • rand_unit ∧
        (m.scatter r_in rec rand_unit att0 sc0 pdf0).attenuation = m.albedo := by
  intro m r_in rec rand_unit att0 sc0 pdf0
  exact ⟨Iff.rfl, rfl, rfl⟩

/-- C5: `dielectric::scatter` always returns true with white attenuation; the
refraction ratio is `1/ir` on a front face and `ir` otherwise, and the
outgoing direction is the mirror reflection when `ratio * sin_theta > 1`
(total internal reflection) or the uniform draw falls below the Schlick
reflectance, and the Snell refraction otherwise. -/
theorem dielectric_scatter_spec :
    ∀ (d : dielectric) (r_in : ray) (rec : hit_record) (rand : ℝ)
      (att0 : color) (sc0 : ray) (pdf0 : ℝ),
      (d.scatter r_in rec rand att0 sc0 pdf0).did ∧
        (d.scatter r_in rec rand att0 sc0 pdf0).attenuation = ⟨1, 1, 1⟩ ∧
        (d.scatter r_in rec rand att0 sc0 pdf0).scattered.direction =
          (let refraction_ratio := if rec.front_face then 1 / d.ir else d.ir
           let unit_direction := vec3.unit_vector r_in.direction
           let cos_theta := min (vec3.dot (-unit_direction) rec.normal) 1
           if refraction_ratio * Real.sqrt (1 - cos_theta * cos_theta) > 1 ∨
               rand < dielectric.reflectance cos_theta refraction_ratio then
             reflect unit_direction rec.normal
           else
             refract unit_direction rec.normal refraction_ratio) := by
  intro d r_in rec rand att0 sc0 pdf0
  exact ⟨trivial, rfl, rfl⟩

/-- C6: `diffuse_light::emitted` returns exactly the texture value at
`(u, v, p)` on a front face and black on a back face, and
`diffuse_light::scatter` returns false for every input. -/
theorem diffuse_light_spec :
    ∀ (m : diffuse_light) (r_in : ray) (rec : hit_record) (u v : ℝ)
      (p : point3) (att0 : color) (sc0 : ray) (pdf0 : ℝ),
      m.emitted r_in rec u v p =
          (if rec.front_face then m.emit.value u v p else ⟨0, 0, 0⟩) ∧
        ¬ (m.scatter r_in rec att0 sc0 pdf0).did := by
  intro m r_in rec u v p att0 sc0 pdf0
  constructor
  · unfold diffuse_light.emitted
    cases rec.front_face <;> simp
  · intro hdid
    exact hdid

/-- C7: `isotropic::scattering_pdf` returns the constant `1/(4*pi)` for all
arguments, and `isotropic::scatter` always returns true with the pdf set to
`1/(4*pi)` and the attenuation set to the texture value at
`(rec.u, rec.v, rec.p)`. -/
theorem isotropic_spec :
    ∀ (m : isotropic) (r_in : ray) (rec : hit_record) (sc : ray)
      (rand_unit : vec3) (alb0 : color) (sc0 : ray) (pdf0 : ℝ),
      m.scattering_pdf r_in rec sc = 1 / (4 * pi) ∧
        (m.scatter r_in rec rand_unit alb0 sc0 pdf0).did ∧
        (m.scatter r_in rec rand_unit alb0 sc0 pdf0).pdf = 1 / (4 * pi) ∧
        (m.scatter r_in rec rand_unit alb0 sc0 pdf0).attenuation =
          m.albedo.value rec.u rec.v rec.p := by
  intro m r_in rec sc rand_unit alb0 sc0 pdf0
  exact ⟨rfl, trivial, rfl, rfl⟩

/-- C9: Schlick reflectance at normal incidence (`cosine = 1`) reduces to
`((1-n)/(1+n))^2` exactly for every refraction index `n`, because the
`(1-r0)*(1-cosine)^5` term vanishes; and this value is 0 at `n = 1`. -/
theorem reflectance_normal_incidence :
    (∀ n : ℝ, dielectric.reflectance 1 n = ((1 - n) / (1 + n)) ^ 2) ∧
      dielectric.reflectance 1 1 = 0 := by
  constructor
  · intro n
    unfold dielectric.reflectance
    norm_num
    ring
  · unfold dielectric.reflectance
    norm_num

/-- C10: `metal::scatter`, `dielectric::scatter` and `diffuse_light::scatter`
never assign the `pdf` out-parameter — after the call it holds exactly its
prior value — and `diffuse_light::scatter` additionally leaves `attenuation`
and `scattered` untouched. -/
theorem scatter_pdf_frame :
    ∀ (mm : metal) (dd : dielectric) (dl : diffuse_light) (r_in : ray)
      (rec : hit_record) (rand_unit : vec3) (rand : ℝ) (att0 : color)
      (sc0 : ray) (pdf0 : ℝ),
      (mm.scatter r_in rec rand_unit att0 sc0 pdf0).pdf = pdf0 ∧
        (dd.scatter r_in rec rand att0 sc0 pdf0).pdf = pdf0 ∧
        (dl.scatter r_in rec att0 sc0 pdf0).pdf = pdf0 ∧
        (dl.scatter r_in rec att0 sc0 pdf0).attenuation = att0 ∧
        (dl.scatter r_in rec att0 sc0 pdf0).scattered = sc0 := by
  intro mm dd dl r_in rec rand_unit rand att0 sc0 pdf0
  exact ⟨rfl, rfl, rfl, rfl, rfl⟩

/-- C2: `lambertian::scatter` always returns true, sets the attenuation to
the texture value at `(rec.u, rec.v, rec.p)`, gives the scattered ray the
origin `rec.p` and the incoming ray's time, and sets
`pdf = dot(basis.w, scattered.direction)/pi` where `basis.w` is the hit
normal; when the normal is unit length and the cosine-weighted draw has a
positive local z-component, the pdf is positive. -/
theorem lambertian_scatter_spec :
    ∀ (m : lambertian) (r_in : ray) (rec : hit_record) (r1 r2 : ℝ)
      (alb0 : color) (sc0 : ray) (pdf0 : ℝ),
      (m.scatter r_in rec r1 r2 alb0 sc0 pdf0).did ∧
        (m.scatter r_in rec r1 r2 alb0 sc0 pdf0).attenuation =
          m.albedo.value rec.u rec.v rec.p ∧
        (m.scatter r_in rec r1 r2 alb0 sc0 pdf0).scattered.origin = rec.p ∧
        (m.scatter r_in rec r1 r2 alb0 sc0 pdf0).scattered.time = r_in.time ∧
        (m.scatter r_in rec r1 r2 alb0 sc0 pdf0).pdf =
          vec3.dot rec.normal
            (m.scatter r_in rec r1 r2 alb0 sc0 pdf0).scattered.direction / pi ∧
        (vec3.dot rec.normal rec.normal = 1 →
          0 < (random_cosine_direction r1 r2).z →
          0 < (m.scatter r_in rec r1 r2 alb0 sc0 pdf0).pdf) := by
  intro m r_in rec r1 r2 alb0 sc0 pdf0
  refine ⟨trivial, rfl, rfl, rfl, rfl, ?_⟩
  intro hn hz
  show 0 < vec3.dot rec.normal
      ((onb.build_from_w rec.normal).local_coords
        (random_cosine_direction r1 r2)) / pi
  rw [dot_w_local, hn, mul_one]
  exact div_pos hz Real.pi_pos

/-- C2 witness: the spec's end-to-end scenario — incoming ray along
`(0,0,-1)`, normal `(0,0,1)`, constant albedo `(0.5,0.5,0.5)`, draws
`r1 = r2 = 0` — satisfies both hypotheses, and the resulting pdf is positive
with attenuation `(0.5,0.5,0.5)`. -/
theorem lambertian_scatter_spec_witness :
    vec3.dot (⟨0, 0, 1⟩ : vec3) ⟨0, 0, 1⟩ = 1 ∧
      0 < (random_cosine_direction 0 0).z ∧
      0 < ((lambertian.of_color ⟨0.5, 0.5, 0.5⟩).scatter
            ⟨⟨0, 0, 0⟩, ⟨0, 0, -1⟩, 0⟩ ⟨⟨0, 0, 0⟩, ⟨0, 0, 1⟩, 1, 0, 0, true⟩
            0 0 ⟨0, 0, 0⟩ ⟨⟨0, 0, 0⟩, ⟨0, 0, 0⟩, 0⟩ 0).pdf ∧
      ((lambertian.of_color ⟨0.5, 0.5, 0.5⟩).scatter
            ⟨⟨0, 0, 0⟩, ⟨0, 0, -1⟩, 0⟩ ⟨⟨0, 0, 0⟩, ⟨0, 0, 1⟩, 1, 0, 0, true⟩
            0 0 ⟨0, 0, 0⟩ ⟨⟨0, 0, 0⟩, ⟨0, 0, 0⟩, 0⟩ 0).attenuation =
        ⟨0.5, 0.5, 0.5⟩ := by
  have hn : vec3.dot (⟨0, 0, 1⟩ : vec3) ⟨0, 0, 1⟩ = 1 := by
    norm_num [vec3.dot]
  have hz : 0 < (random_cosine_direction 0 0).z := by
    show (0 : ℝ) < Real.sqrt (1 - 0)
    rw [sub_zero, Real.sqrt_one]
    norm_num
  have h := lambertian_scatter_spec (lambertian.of_color ⟨0.5, 0.5, 0.5⟩)
    ⟨⟨0, 0, 0⟩, ⟨0, 0, -1⟩, 0⟩ ⟨⟨0, 0, 0⟩, ⟨0, 0, 1⟩, 1, 0, 0, true⟩
    0 0 ⟨0, 0, 0⟩ ⟨⟨0, 0, 0⟩, ⟨0, 0, 0⟩, 0⟩ 0
  exact ⟨hn, hz, h.2.2.2.2.2 hn hz, h.2.1.trans rfl⟩

/-- C8: for a metal constructed with `fuzz = 0` the perturbation term is the
zero vector, so whenever the mirror reflection of the normalized incoming
direction has positive dot product with the normal, `scatter` returns true
and the scattered direction equals that mirror reflection exactly. -/
theorem metal_fuzz_zero_scatter :
    ∀ (a : color) (r_in : ray) (rec : hit_record) (rand_unit : vec3)
      (att0 : color) (sc0 : ray) (pdf0 : ℝ),
      0 < vec3.dot (reflect (vec3.unit_vector r_in.direction) rec.normal)
          rec.normal →
      ((metal.make a 0).scatter r_in rec rand_unit att0 sc0 pdf0).did ∧
        ((metal.make a 0).scatter r_in rec rand_unit att0 sc0
            pdf0).scattered.direction =
          reflect (vec3.unit_vector r_in.direction) rec.normal := by
  intro a r_in rec rand_unit att0 sc0 pdf0 hrefl
  have hfuzz : (metal.make a 0).fuzz = 0 := by
    norm_num [metal.make]
  have hdir : ((metal.make a 0).scatter r_in rec rand_unit att0 sc0
      pdf0).scattered.direction =
      reflect (vec3.unit_vector r_in.direction) rec.normal := by
    show reflect (vec3.unit_vector r_in.direction) rec.normal +
        (metal.make a 0).fuzz • rand_unit = _
    rw [hfuzz, vec3.add_zero_smul]
  refine ⟨?_, hdir⟩
  show 0 < vec3.dot ((metal.make a 0).scatter r_in rec rand_unit att0 sc0
      pdf0).scattered.direction rec.normal
  rw [hdir]
  exact hrefl

/-- C8 witness: incoming direction `(0,0,-1)` against normal `(0,0,1)`
reflects to `(0,0,1)` with positive dot product, so the fuzz-zero metal
scatters and keeps the exact mirror reflection. -/
theorem metal_fuzz_zero_scatter_witness :
    0 < vec3.dot
        (reflect (vec3.unit_vector (⟨0, 0, -1⟩ : vec3)) ⟨0, 0, 1⟩)
        (⟨0, 0, 1⟩ : vec3) ∧
      ((metal.make ⟨1, 1, 1⟩ 0).scatter ⟨⟨0, 0, 0⟩, ⟨0, 0, -1⟩, 0⟩
          ⟨⟨0, 0, 0⟩, ⟨0, 0, 1⟩, 1, 0, 0, true⟩ ⟨1, 0, 0⟩ ⟨0, 0, 0⟩
          ⟨⟨0, 0, 0⟩, ⟨0, 0, 0⟩, 0⟩ 0).did ∧
      ((metal.make ⟨1, 1, 1⟩ 0).scatter ⟨⟨0, 0, 0⟩, ⟨0, 0, -1⟩, 0⟩
          ⟨⟨0, 0, 0⟩, ⟨0, 0, 1⟩, 1, 0, 0, true⟩ ⟨1, 0, 0⟩ ⟨0, 0, 0⟩
          ⟨⟨0, 0, 0⟩, ⟨0, 0, 0⟩, 0⟩ 0).scattered.direction =
        reflect (vec3.unit_vector (⟨0, 0, -1⟩ : vec3)) ⟨0, 0, 1⟩ := by
  have hrefl : 0 < vec3.dot
      (reflect (vec3.unit_vector (⟨0, 0, -1⟩ : vec3)) ⟨0, 0, 1⟩)
      (⟨0, 0, 1⟩ : vec3) := by
    simp only [vec3.unit_vector, vec3.length, vec3.dot, reflect,
      vec3.sub_def, vec3.neg_def, vec3.add_def, vec3.smul_def]
    norm_num [Real.sqrt_one]
  have h := metal_fuzz_zero_scatter ⟨1, 1, 1⟩ ⟨⟨0, 0, 0⟩, ⟨0, 0, -1⟩, 0⟩
    ⟨⟨0, 0, 0⟩, ⟨0, 0, 1⟩, 1, 0, 0, true⟩ ⟨1, 0, 0⟩ ⟨0, 0, 0⟩
    ⟨⟨0, 0, 0⟩, ⟨0, 0, 0⟩, 0⟩ 0 hrefl
  exact ⟨hrefl, h.1, h.2⟩

end RayTracer
